import Mathlib

/-!
Shallow embedding of the RideShareFrontend presentation-layer logic
(`src/frontend/src/components/trips/SearchForm.tsx`, which contains both the
`SearchForm` and `TripCard` components), together with theorems settling the
specification claims about it.

JavaScript strings are modelled as Lean `String`s; the JS string operations
used by the code (`trim`, `toLowerCase`, `replace(/[,\.]/g,'')`, `\D`
stripping, `slice`, `length`) are given explicit char-list implementations so
that proofs and concrete evaluation stay kernel-friendly.  Machine dates
(`new Date(...)` instants) are modelled as `Int` timestamps supplied by the
environment: the date parser and the zeroed-out "today" instant are parameters
of the validation function, exactly mirroring that the component reads them
from the runtime clock.
-/

namespace RideShare

/-- JS `/\s/`-style whitespace test used by `String.prototype.trim` for the
ASCII inputs relevant here. -/
def jsIsWhitespace (c : Char) : Bool :=
  c = ' ' || c = '\t' || c = '\n' || c = '\r'

/-- JS `String.prototype.trim`: drop leading and trailing whitespace. -/
def jsTrim (s : String) : String :=
  String.mk (((s.toList.dropWhile jsIsWhitespace).reverse.dropWhile
    jsIsWhitespace).reverse)

/-- JS `String.prototype.toLowerCase` (ASCII fragment). -/
def jsToLower (s : String) : String :=
  String.mk (s.toList.map Char.toLower)

/-- `SearchFormData` from SearchForm.tsx.  The source fields are
`from`, `to`, `departureDate`, `maxPrice`; `from` is a Lean keyword so the
first two are named `fromLoc`/`toLoc` here. -/
structure SearchFormData where
  fromLoc : String
  toLoc : String
  departureDate : String
  maxPrice : Int
deriving DecidableEq, Repr

/-- The field-keyed error map built by `validateForm`
(`Partial<SearchFormData>`): a missing key is `none`. -/
structure SearchErrors where
  fromErr : Option String
  toErr : Option String
  dateErr : Option String
deriving DecidableEq, Repr

/-- `normalizeLocation` from SearchForm.tsx: lowercase, remove all commas and
periods, trim. -/
def normalizeLocation (location : String) : String :=
  jsTrim (String.mk ((jsToLower location).toList.filter
    (fun c => !(c = ',' || c = '.'))))

/-- `validateForm` from SearchForm.tsx.  `parseDate` models the JS
`new Date(formData.departureDate)` instant and `todayMid` the
`new Date()` instant with `setHours(0,0,0,0)` applied; both are environment
inputs.  The JS guard `if (formData.departureDate)` is the emptiness test on
the string. -/
def validateForm (parseDate : String → Int) (todayMid : Int)
    (fd : SearchFormData) : SearchErrors :=
  let e0 : SearchErrors := ⟨none, none, none⟩
  let e1 := if jsTrim fd.fromLoc = "" then
      { e0 with fromErr := some "Departure location is required" } else e0
  let e2 := if jsTrim fd.toLoc = "" then
      { e1 with toErr := some "Destination is required" } else e1
  let e3 := if normalizeLocation fd.fromLoc = normalizeLocation fd.toLoc then
      { e2 with toErr := some "Destination must be different from departure location" } else e2
  if fd.departureDate ≠ "" then
    (if parseDate fd.departureDate < todayMid then
      { e3 with dateErr := some "Departure date cannot be in the past" } else e3)
  else e3

/-- `Object.keys(newErrors).length === 0`: validation succeeds iff the error
map is empty. -/
def noErrors (e : SearchErrors) : Bool :=
  e.fromErr.isNone && e.toErr.isNone && e.dateErr.isNone

/-- `handleSubmit` from SearchForm.tsx, as the payload it hands to `onSearch`:
`none` means validation failed and `onSearch` was invoked zero times, `some p`
means `onSearch` was invoked exactly once with payload `p`.  On success the
payload carries trimmed locations and substitutes `10000` for a falsy (zero)
`maxPrice` (`formData.maxPrice || 10000`). -/
def handleSubmit (parseDate : String → Int) (todayMid : Int)
    (fd : SearchFormData) : Option SearchFormData :=
  if noErrors (validateForm parseDate todayMid fd) then
    some { fromLoc := jsTrim fd.fromLoc
           toLoc := jsTrim fd.toLoc
           departureDate := fd.departureDate
           maxPrice := if fd.maxPrice = 0 then 10000 else fd.maxPrice }
  else
    none

/-- Value of a nonempty decimal-digit string read left to right; `none` when
the list does not start with a digit (JS `parseInt` yields `NaN` there). -/
def digitsVal (l : List Char) : Option Nat :=
  let ds := l.takeWhile Char.isDigit
  if ds.isEmpty then none
  else some (ds.foldl (fun a c => a * 10 + (c.toNat - 48)) 0)

/-- JS `parseInt(value)` (radix 10) on the values a `type="number"` input can
produce: skip leading whitespace, optional sign, then the longest leading run
of decimal digits; `none` models `NaN`. -/
def parseIntJS (s : String) : Option Int :=
  match s.toList.dropWhile jsIsWhitespace with
  | '-' :: rest => (digitsVal rest).map (fun n => -(n : Int))
  | '+' :: rest => (digitsVal rest).map (fun n => (n : Int))
  | l => (digitsVal l).map (fun n => (n : Int))

/-- The `type === 'number'` arm of `handleChange` in SearchForm.tsx:
`value === '' ? 0 : Math.max(0, parseInt(value) || 0)`. -/
def coerceMaxPrice (value : String) : Int :=
  if value = "" then 0
  else match parseIntJS value with
    | none => 0
    | some n => max 0 n

/-! ### Debounced live search

`handleChange` updates the form snapshot and, when the edited field is `from`
or `to` and the new value has length at least 2, re-invokes the lodash
`debounce`d `onSearch` (500ms, default trailing edge) with the raw new
snapshot.  The debounce is modelled as an explicit timed state machine: the
state carries the form plus at most one pending timer `(deadline, payload)`;
invoking the debounced function replaces the timer with a fresh one at
`now + 500`, and a timer whose deadline has been reached fires its payload. -/

/-- The four input fields wired to `handleChange`. -/
inductive FieldName where
  | fromField
  | toField
  | dateField
  | priceField
deriving DecidableEq, Repr

/-- One change event: the edited field, the new raw string value, and the
time (ms) at which the edit happens. -/
structure Edit where
  name : FieldName
  value : String
  time : Nat
deriving DecidableEq, Repr

/-- The `setFormData(newFormData)` update in `handleChange`: the edited field
is replaced, with the number coercion on `maxPrice`. -/
def applyEdit (fd : SearchFormData) (n : FieldName) (v : String) :
    SearchFormData :=
  match n with
  | .fromField => { fd with fromLoc := v }
  | .toField => { fd with toLoc := v }
  | .dateField => { fd with departureDate := v }
  | .priceField => { fd with maxPrice := coerceMaxPrice v }

/-- The guard `(name === 'from' || name === 'to') && value.length >= 2` under
which `handleChange` invokes `debouncedSearch(newFormData)`. -/
def qualifiesForDebounce (n : FieldName) (v : String) : Bool :=
  (n = FieldName.fromField || n = FieldName.toField) && v.toList.length ≥ 2

/-- Debounce machine state: current form snapshot and the pending trailing
edge timer, if any, as `(deadline, payload)`. -/
structure DebounceState where
  form : SearchFormData
  pending : Option (Nat × SearchFormData)
deriving DecidableEq, Repr

/-- The lodash debounce delay used by `debouncedSearch`. -/
def debounceDelayMs : Nat := 500

/-- Process one change event at its timestamp: first any timer whose deadline
has been reached fires (emitting its payload to `onSearch`), then the form is
updated, and a qualifying edit schedules a fresh trailing-edge timer for the
raw new snapshot. -/
def stepEdit (s : DebounceState) (e : Edit) :
    List SearchFormData × DebounceState :=
  let fired : List SearchFormData × Option (Nat × SearchFormData) :=
    match s.pending with
    | some (d, payload) =>
        if d ≤ e.time then ([payload], none) else ([], some (d, payload))
    | none => ([], none)
  let newForm := applyEdit s.form e.name e.value
  let pend :=
    if qualifiesForDebounce e.name e.value then
      some (e.time + debounceDelayMs, newForm)
    else fired.2
  (fired.1, ⟨newForm, pend⟩)

/-- Run a sequence of change events, collecting every `onSearch` call the
debounce fires along the way. -/
def runEdits (s : DebounceState) (es : List Edit) :
    List SearchFormData × DebounceState :=
  match es with
  | [] => ([], s)
  | e :: rest =>
      let r1 := stepEdit s e
      let r2 := runEdits r1.2 rest
      (r1.1 ++ r2.1, r2.2)

/-- All `onSearch` calls once time has advanced past every deadline: calls
fired during the edits plus the final pending timer's payload. -/
def flushCalls (r : List SearchFormData × DebounceState) :
    List SearchFormData :=
  r.1 ++ (match r.2.pending with
    | some (_, payload) => [payload]
    | none => [])

/-- Every consecutive pair of edits after a timer set at `d` arrives before
the live deadline; `d` is the deadline pending when the list starts. -/
def chainFrom (d : Nat) : List Edit → Prop
  | [] => True
  | e :: rest => e.time < d ∧ chainFrom (e.time + debounceDelayMs) rest

instance instDecChainFrom (d : Nat) (es : List Edit) :
    Decidable (chainFrom d es) := by
  induction es generalizing d with
  | nil => exact isTrue trivial
  | cons e rest ih => exact @instDecidableAnd _ _ _ (ih (e.time + debounceDelayMs))

/-- A whole edit sequence happens inside one debounce window: each edit lands
before the deadline set by its predecessor. -/
def withinWindow : List Edit → Prop
  | [] => True
  | e :: rest => chainFrom (e.time + debounceDelayMs) rest

instance (es : List Edit) : Decidable (withinWindow es) := by
  cases es with
  | nil => exact isTrue trivial
  | cons e rest => exact instDecChainFrom _ _

/-- The form snapshot after a sequence of edits. -/
def applyEdits (fd : SearchFormData) (es : List Edit) : SearchFormData :=
  es.foldl (fun f e => applyEdit f e.name e.value) fd

/-! ### TripCard -/

/-- The `userRole` flag delivered with a trip: `'driver'`, `'passenger'`, or
absent. -/
inductive UserRole where
  | driver
  | passenger
  | noneRole
deriving DecidableEq, Repr

/-- The authenticated user from `useAuth()`; only the fields TripCard's role
logic reads.  The hook may yield no user, modelled by `Option User`. -/
structure User where
  id : Nat
deriving DecidableEq, Repr

/-- The trip entity fields that TripCard's role derivation and join flow
read (`id`, `driverId`, `userRole`, `currentPassengers`, `maxPassengers`);
the display-only fields (route, times, price, driver contact, passenger
roster) do not enter the claimed logic. -/
structure Trip where
  id : Nat
  driverId : Nat
  userRole : UserRole
  currentPassengers : Nat
  maxPassengers : Nat
deriving DecidableEq, Repr

/-- `isOwner`: `user?.id === localTrip.driverId || localTrip.userRole ===
'driver'`; a null user makes the id test false. -/
def isOwner (user : Option User) (t : Trip) : Bool :=
  (match user with
   | some u => u.id == t.driverId
   | none => false) || t.userRole == UserRole.driver

/-- `isPassenger`: `localTrip.userRole === 'passenger'`. -/
def isPassenger (t : Trip) : Bool :=
  t.userRole == UserRole.passenger

/-- `canJoin`: `!isOwner && !isPassenger && localTrip.currentPassengers <
localTrip.maxPassengers`. -/
def canJoin (user : Option User) (t : Trip) : Bool :=
  !isOwner user t && !isPassenger t &&
    decide (t.currentPassengers < t.maxPassengers)

/-- `isFull`: `localTrip.currentPassengers >= localTrip.maxPassengers`. -/
def isFull (t : Trip) : Bool :=
  decide (t.maxPassengers ≤ t.currentPassengers)

/-- The join button is rendered (enabled) exactly under the JSX guard
`canJoin && showActions`. -/
def joinControlRendered (user : Option User) (t : Trip)
    (showActions : Bool) : Bool :=
  canJoin user t && showActions

/-- `formatPhoneNumber` from TripCard: early-return `''` on an empty string,
strip non-digits (`replace(/\D/g, '')`), then group by digit count; JS
`slice(0, -10)`/`slice(-10)` become `take (len - 10)`/`drop (len - 10)`. -/
def formatPhoneNumber (phoneNumber : String) : String :=
  if phoneNumber = "" then ""
  else
    let cleaned := phoneNumber.toList.filter Char.isDigit
    if cleaned.length = 10 then
      "+91 " ++ String.mk (cleaned.take 5) ++ " " ++ String.mk (cleaned.drop 5)
    else if cleaned.length > 10 then
      let countryCode := cleaned.take (cleaned.length - 10)
      let number := cleaned.drop (cleaned.length - 10)
      "+" ++ String.mk countryCode ++ " " ++ String.mk (number.take 5) ++ " " ++
        String.mk (number.drop 5)
    else phoneNumber

/-- Result of one `handleJoin` invocation: the local trip state afterwards,
the alerts shown, and the trips passed to the `onUpdate` callback. -/
structure JoinResult where
  localTrip : Trip
  alerts : List String
  onUpdateCalls : List Trip
deriving DecidableEq, Repr

/-- `handleJoin` from TripCard.  `hasOnJoin` records whether an `onJoin`
callback prop was supplied; `outcome` is the result of the awaited call
(`joinTrip(localTrip.id)` in the direct path, `onJoin(localTrip.id)` in the
callback path), `.error m` carrying the thrown error's message.  In the
direct path a successful await is followed by
`setLocalTrip({...localTrip, currentPassengers: localTrip.currentPassengers + 1})`
and `onUpdate?.(updatedTrip)`; the callback path never touches `localTrip`;
both paths `alert(error.message)` on failure. -/
def handleJoin (hasOnJoin : Bool) (outcome : Except String Unit)
    (t : Trip) : JoinResult :=
  if hasOnJoin then
    match outcome with
    | .ok _ => ⟨t, [], []⟩
    | .error m => ⟨t, [m], []⟩
  else
    match outcome with
    | .ok _ =>
        let updatedTrip := { t with currentPassengers := t.currentPassengers + 1 }
        ⟨updatedTrip, [], [updatedTrip]⟩
    | .error m => ⟨t, [m], []⟩

/-- Observable events of the direct-API join path, in program order. -/
inductive JoinEvent where
  | callApi
  | confirmSuccess
  | incrementLocal
  | alertError
deriving DecidableEq, Repr

instance : BEq JoinEvent := ⟨fun a b => decide (a = b)⟩

/-- Program-order event trace of the direct-API branch of `handleJoin`:
`await joinTrip(localTrip.id)` runs first, and only after it resolves
successfully does the local increment happen; a rejection jumps to the
`alert`. -/
def directJoinEvents : Except String Unit → List JoinEvent
  | .ok _ => [JoinEvent.callApi, JoinEvent.confirmSuccess,
      JoinEvent.incrementLocal]
  | .error _ => [JoinEvent.callApi, JoinEvent.alertError]

/-- The last edit of the nonempty sequence `e :: es`. -/
def lastEdit (e : Edit) : List Edit → Edit
  | [] => e
  | x :: xs => lastEdit x xs

/-! ## Helper lemmas -/

theorem validateForm_fromErr (p : String → Int) (t : Int)
    (fd : SearchFormData) :
    (validateForm p t fd).fromErr =
      (if jsTrim fd.fromLoc = "" then some "Departure location is required"
       else none) := by
  unfold validateForm
  dsimp only
  repeat' split
  all_goals rfl

theorem validateForm_toErr (p : String → Int) (t : Int)
    (fd : SearchFormData) :
    (validateForm p t fd).toErr =
      (if normalizeLocation fd.fromLoc = normalizeLocation fd.toLoc then
        some "Destination must be different from departure location"
      else if jsTrim fd.toLoc = "" then some "Destination is required"
      else none) := by
  unfold validateForm
  dsimp only
  repeat' split
  all_goals rfl

theorem validateForm_dateErr (p : String → Int) (t : Int)
    (fd : SearchFormData) :
    (validateForm p t fd).dateErr =
      (if fd.departureDate ≠ "" ∧ p fd.departureDate < t then
        some "Departure date cannot be in the past" else none) := by
  unfold validateForm
  dsimp only
  repeat' split
  all_goals first | rfl | simp_all

theorem handleSubmit_none (p : String → Int) (t : Int) (fd : SearchFormData)
    (h : noErrors (validateForm p t fd) = false) :
    handleSubmit p t fd = none := by
  unfold handleSubmit
  simp [h]

theorem runEdits_cons (s : DebounceState) (e : Edit) (es : List Edit) :
    runEdits s (e :: es) =
      ((stepEdit s e).1 ++ (runEdits (stepEdit s e).2 es).1,
        (runEdits (stepEdit s e).2 es).2) := rfl

/-- Running an all-qualifying edit sequence inside one debounce window, from
a state whose pending deadline has not yet been reached, fires nothing and
leaves one trailing-edge timer for the final snapshot. -/
theorem runEdits_chain (es : List Edit) :
    ∀ (e : Edit) (form p : SearchFormData) (d : Nat), e.time < d →
      (∀ x ∈ e :: es, qualifiesForDebounce x.name x.value = true) →
      chainFrom (e.time + debounceDelayMs) es →
      runEdits ⟨form, some (d, p)⟩ (e :: es) =
        ([], ⟨applyEdits form (e :: es),
          some ((lastEdit e es).time + debounceDelayMs,
            applyEdits form (e :: es))⟩) := by
  induction es with
  | nil =>
      intro e form p d hlt hq _
      have hqe : qualifiesForDebounce e.name e.value = true :=
        hq e (List.mem_singleton.mpr rfl)
      simp [runEdits, stepEdit, Nat.not_le.mpr hlt, hqe, applyEdits, lastEdit]
  | cons e2 rest ih =>
      intro e form p d hlt hq hchain
      have hqe : qualifiesForDebounce e.name e.value = true :=
        hq e (List.mem_cons_self e _)
      have hq2 : ∀ x ∈ e2 :: rest, qualifiesForDebounce x.name x.value = true :=
        fun x hx => hq x (List.mem_cons_of_mem e hx)
      have hstep : stepEdit ⟨form, some (d, p)⟩ e =
          ([], ⟨applyEdit form e.name e.value,
            some (e.time + debounceDelayMs, applyEdit form e.name e.value)⟩) := by
        simp [stepEdit, Nat.not_le.mpr hlt, hqe]
      have htail := ih e2 (applyEdit form e.name e.value)
        (applyEdit form e.name e.value) (e.time + debounceDelayMs)
        hchain.1 hq2 hchain.2
      rw [runEdits_cons, hstep]
      dsimp only
      rw [htail]
      simp [applyEdits, lastEdit]

/-- A sequence with no qualifying edit never schedules a timer and fires no
call. -/
theorem runEdits_no_qual (ns : List Edit) :
    ∀ form : SearchFormData,
      (∀ x ∈ ns, qualifiesForDebounce x.name x.value = false) →
      runEdits ⟨form, none⟩ ns = ([], ⟨applyEdits form ns, none⟩) := by
  induction ns with
  | nil => intro form _; simp [runEdits, applyEdits]
  | cons e rest ih =>
      intro form h
      have hqe : qualifiesForDebounce e.name e.value = false :=
        h e (List.mem_cons_self e _)
      have hrest : ∀ x ∈ rest, qualifiesForDebounce x.name x.value = false :=
        fun x hx => h x (List.mem_cons_of_mem e hx)
      have hstep : stepEdit ⟨form, none⟩ e =
          ([], ⟨applyEdit form e.name e.value, none⟩) := by
        simp [stepEdit, hqe]
      simp [runEdits, hstep, ih _ hrest, applyEdits]

/-! ## Claim theorems -/

/-- C2 (counterexample): with both fields empty, the `to` field's final error
is the destination-mismatch message — `validateForm` overwrites the
required-field message `"Destination is required"` because the two empty
locations normalize identically — so the claim that an empty `to` always
yields its required-field error is false. -/
theorem emptyFields_requiredError_cex :
    jsTrim (SearchFormData.mk "" "" "" 0).toLoc = "" ∧
    (validateForm (fun _ => 0) 0 (SearchFormData.mk "" "" "" 0)).toErr ≠
      some "Destination is required" := by decide

/-- C2 (amended): submitting with `from` empty after trimming always sets
`"Departure location is required"` on `from` and invokes `onSearch` zero
times; submitting with `to` empty after trimming always sets an error on `to`
and invokes `onSearch` zero times, but that error is the destination-mismatch
message rather than `"Destination is required"` whenever the two locations
normalize to the same string (in particular when both are empty). -/
theorem emptyFields_requiredError (parseDate : String → Int) (todayMid : Int)
    (fd : SearchFormData) :
    (jsTrim fd.fromLoc = "" →
      (validateForm parseDate todayMid fd).fromErr =
        some "Departure location is required" ∧
      handleSubmit parseDate todayMid fd = none) ∧
    (jsTrim fd.toLoc = "" →
      (validateForm parseDate todayMid fd).toErr =
        (if normalizeLocation fd.fromLoc = normalizeLocation fd.toLoc then
          some "Destination must be different from departure location"
        else some "Destination is required") ∧
      handleSubmit parseDate todayMid fd = none) := by
  constructor
  · intro h
    have hf := validateForm_fromErr parseDate todayMid fd
    rw [if_pos h] at hf
    refine ⟨hf, handleSubmit_none _ _ _ ?_⟩
    simp [noErrors, hf]
  · intro h
    have ht := validateForm_toErr parseDate todayMid fd
    by_cases hn : normalizeLocation fd.fromLoc = normalizeLocation fd.toLoc
    · rw [if_pos hn] at ht
      rw [if_pos hn]
      refine ⟨ht, handleSubmit_none _ _ _ ?_⟩
      simp [noErrors, ht]
    · rw [if_neg hn, if_pos h] at ht
      rw [if_neg hn]
      refine ⟨ht, handleSubmit_none _ _ _ ?_⟩
      simp [noErrors, ht]

/-- C2 witness. -/
theorem emptyFields_requiredError_witness :
    (validateForm (fun _ => 0) 0 (SearchFormData.mk "" "" "" 0)).fromErr =
      some "Departure location is required" ∧
    handleSubmit (fun _ => 0) 0 (SearchFormData.mk "" "" "" 0) = none :=
  (emptyFields_requiredError _ _ _).1 (by decide)

/-- C3: whenever `from` and `to` normalize (lowercase, strip commas and
periods, trim) to the same string, submission fails with the
destination-mismatch error on the `to` field and `onSearch` is not invoked. -/
theorem normalizedEqual_rejected (parseDate : String → Int) (todayMid : Int)
    (fd : SearchFormData)
    (hn : normalizeLocation fd.fromLoc = normalizeLocation fd.toLoc) :
    (validateForm parseDate todayMid fd).toErr =
      some "Destination must be different from departure location" ∧
    handleSubmit parseDate todayMid fd = none := by
  have ht := validateForm_toErr parseDate todayMid fd
  rw [if_pos hn] at ht
  refine ⟨ht, handleSubmit_none _ _ _ ?_⟩
  simp [noErrors, ht]

/-- C3 witness: "Mumbai" vs "mumbai," differs only in case and punctuation. -/
theorem normalizedEqual_rejected_witness :
    normalizeLocation "Mumbai" = normalizeLocation "mumbai," ∧
    (validateForm (fun _ => 0) 0 (SearchFormData.mk "Mumbai" "mumbai," "" 0)).toErr =
      some "Destination must be different from departure location" ∧
    handleSubmit (fun _ => 0) 0 (SearchFormData.mk "Mumbai" "mumbai," "" 0) =
      none := by
  have hn : normalizeLocation "Mumbai" = normalizeLocation "mumbai," := by decide
  exact ⟨hn, normalizedEqual_rejected _ _ _ hn⟩

/-- C8: an empty `departureDate` is never date-checked; a supplied date whose
parsed instant is strictly before the zeroed-out "today" instant sets the
past-date error and aborts submission. -/
theorem pastDate_rejected (parseDate : String → Int) (todayMid : Int)
    (fd : SearchFormData) :
    (fd.departureDate = "" →
      (validateForm parseDate todayMid fd).dateErr = none) ∧
    (fd.departureDate ≠ "" → parseDate fd.departureDate < todayMid →
      (validateForm parseDate todayMid fd).dateErr =
        some "Departure date cannot be in the past" ∧
      handleSubmit parseDate todayMid fd = none) := by
  have hd := validateForm_dateErr parseDate todayMid fd
  constructor
  · intro h
    rw [hd, if_neg]
    simp [h]
  · intro h1 h2
    rw [if_pos ⟨h1, h2⟩] at hd
    refine ⟨hd, handleSubmit_none _ _ _ ?_⟩
    simp [noErrors, hd]

/-- C8 witness: a parse valuation placing the chosen date strictly before the
today instant. -/
theorem pastDate_rejected_witness :
    (validateForm (fun _ => -1) 0 (SearchFormData.mk "Delhi" "Mumbai" "2020-01-01" 0)).dateErr =
      some "Departure date cannot be in the past" ∧
    handleSubmit (fun _ => -1) 0 (SearchFormData.mk "Delhi" "Mumbai" "2020-01-01" 0) =
      none :=
  (pastDate_rejected _ _ _).2 (by decide) (by decide)

/-- C9: every change event on the number-typed `maxPrice` input stores a
non-negative integer — `0` for an empty or unparseable value, the parsed
value clamped below at `0` otherwise — and the submit payload substitutes the
fallback ceiling `10000` exactly when the stored value is `0`. -/
theorem maxPrice_coercion_and_fallback :
    (∀ v : String, 0 ≤ coerceMaxPrice v ∧
      ((v = "" ∨ parseIntJS v = none) → coerceMaxPrice v = 0) ∧
      (∀ n : Int, parseIntJS v = some n → coerceMaxPrice v = max 0 n)) ∧
    (∀ (p : String → Int) (t : Int) (fd out : SearchFormData),
      handleSubmit p t fd = some out →
        out.maxPrice = (if fd.maxPrice = 0 then 10000 else fd.maxPrice)) := by
  constructor
  · intro v
    refine ⟨?_, ?_, ?_⟩
    · unfold coerceMaxPrice
      split
      · exact le_refl 0
      · cases hp : parseIntJS v <;> simp [hp]
    · rintro (h | h)
      · simp [coerceMaxPrice, h]
      · by_cases hv : v = ""
        · simp [coerceMaxPrice, hv]
        · simp [coerceMaxPrice, hv, h]
    · intro n hn
      have hv : v ≠ "" := by
        intro he
        rw [he] at hn
        simp [parseIntJS, jsIsWhitespace, digitsVal] at hn
      simp [coerceMaxPrice, hv, hn]
  · intro p t fd out h
    unfold handleSubmit at h
    split at h
    · injection h with h2
      rw [← h2]
    · exact absurd h (by simp)

/-- C9 witness. -/
theorem maxPrice_coercion_and_fallback_witness :
    coerceMaxPrice "-5" = max 0 (-5) ∧
    coerceMaxPrice "abc" = 0 ∧
    (SearchFormData.mk "a" "b" "" 10000).maxPrice =
      (if (SearchFormData.mk "a" "b" "" (0:Int)).maxPrice = 0 then 10000
       else (SearchFormData.mk "a" "b" "" (0:Int)).maxPrice) :=
  ⟨(maxPrice_coercion_and_fallback.1 "-5").2.2 (-5) (by decide),
   (maxPrice_coercion_and_fallback.1 "abc").2.1 (Or.inr (by decide)),
   maxPrice_coercion_and_fallback.2 (fun _ => 0) 0
     (SearchFormData.mk "a" "b" "" 0) (SearchFormData.mk "a" "b" "" 10000)
     (by decide)⟩

/-- C7: `formatPhoneNumber` strips non-digits; exactly 10 remaining digits
render as `+91` with a 5+5 grouping, more than 10 render the leading excess
as the country code over the trailing 10 grouped 5+5, and fewer than 10
return the input unchanged; `"9876543210"` and `"919876543210"` both format
as `"+91 98765 43210"`. -/
theorem formatPhoneNumber_spec (s : String) :
    ((s.toList.filter Char.isDigit).length = 10 →
      formatPhoneNumber s =
        "+91 " ++ String.mk ((s.toList.filter Char.isDigit).take 5) ++ " " ++
          String.mk ((s.toList.filter Char.isDigit).drop 5)) ∧
    (10 < (s.toList.filter Char.isDigit).length →
      formatPhoneNumber s =
        "+" ++ String.mk ((s.toList.filter Char.isDigit).take
            ((s.toList.filter Char.isDigit).length - 10)) ++ " " ++
          String.mk (((s.toList.filter Char.isDigit).drop
            ((s.toList.filter Char.isDigit).length - 10)).take 5) ++ " " ++
          String.mk (((s.toList.filter Char.isDigit).drop
            ((s.toList.filter Char.isDigit).length - 10)).drop 5)) ∧
    ((s.toList.filter Char.isDigit).length < 10 → formatPhoneNumber s = s) ∧
    formatPhoneNumber "9876543210" = "+91 98765 43210" ∧
    formatPhoneNumber "919876543210" = "+91 98765 43210" := by
  refine ⟨?_, ?_, ?_, by decide, by decide⟩
  · intro h
    have hs : s ≠ "" := by
      intro he
      rw [he] at h
      simp at h
    unfold formatPhoneNumber
    rw [if_neg hs]
    dsimp only
    rw [if_pos h]
  · intro h
    have hs : s ≠ "" := by
      intro he
      rw [he] at h
      simp at h
    unfold formatPhoneNumber
    rw [if_neg hs]
    dsimp only
    rw [if_neg (by omega), if_pos h]
  · intro h
    by_cases hs : s = ""
    · rw [hs]; rfl
    · unfold formatPhoneNumber
      rw [if_neg hs]
      dsimp only
      rw [if_neg (by omega), if_neg (by omega)]

/-- C7 witness. -/
theorem formatPhoneNumber_spec_witness :
    formatPhoneNumber "98765-43210" =
      "+91 " ++ String.mk (("98765-43210".toList.filter Char.isDigit).take 5) ++
        " " ++ String.mk (("98765-43210".toList.filter Char.isDigit).drop 5) :=
  (formatPhoneNumber_spec "98765-43210").1 (by decide)

/-- C6: `canJoin` holds exactly when the user is neither owner nor passenger
and occupancy is below capacity (so it is false whenever
`isOwner || isPassenger || currentPassengers >= maxPassengers`), `isFull`
holds exactly when occupancy has reached capacity, and a card at capacity
renders no enabled join control. -/
theorem tripCard_roles (u : Option User) (t : Trip) (sa : Bool) :
    (canJoin u t = true ↔
      (isOwner u t = false ∧ isPassenger t = false ∧
        t.currentPassengers < t.maxPassengers)) ∧
    ((isOwner u t = true ∨ isPassenger t = true ∨
        t.maxPassengers ≤ t.currentPassengers) → canJoin u t = false) ∧
    (isFull t = true ↔ t.maxPassengers ≤ t.currentPassengers) ∧
    (t.currentPassengers = t.maxPassengers →
      joinControlRendered u t sa = false) := by
  refine ⟨?_, ?_, ?_, ?_⟩
  · simp [canJoin, and_assoc]
  · rintro (h | h | h) <;> simp [canJoin, h]
  · simp [isFull]
  · intro h
    simp [joinControlRendered, canJoin, h]

/-- C6 witness: a full trip (3 of 3 seats) for a stranger user. -/
theorem tripCard_roles_witness :
    canJoin (some (User.mk 5)) (Trip.mk 1 2 UserRole.noneRole 3 3) = false ∧
    joinControlRendered (some (User.mk 5)) (Trip.mk 1 2 UserRole.noneRole 3 3)
      true = false :=
  ⟨(tripCard_roles _ _ true).2.1 (Or.inr (Or.inr (by decide))),
   (tripCard_roles _ _ true).2.2.2 rfl⟩

/-- C5: in the direct-API join path a successful `joinTrip` call increments
local `currentPassengers` by exactly one (and changes nothing else), while a
failed call surfaces the error message in an alert and leaves the local trip
state exactly as before the call. -/
theorem directJoin_success_failure (t : Trip) (m : String) :
    (handleJoin false (Except.ok ()) t).localTrip =
      { t with currentPassengers := t.currentPassengers + 1 } ∧
    (handleJoin false (Except.ok ()) t).localTrip.currentPassengers =
      t.currentPassengers + 1 ∧
    (handleJoin false (Except.ok ()) t).alerts = [] ∧
    (handleJoin false (Except.error m) t).localTrip = t ∧
    (handleJoin false (Except.error m) t).alerts = [m] :=
  ⟨rfl, rfl, rfl, rfl, rfl⟩

/-- C1 (counterexample): when an `onJoin` callback is supplied, a successful
`handleJoin` leaves `localTrip.currentPassengers` unchanged — the callback
path performs no local mutation — refuting that the join path increments the
local count in both paths. -/
theorem joinPath_mutation_cex :
    (handleJoin true (Except.ok ())
        (Trip.mk 1 2 UserRole.noneRole 1 4)).localTrip.currentPassengers = 1 ∧
    ¬ (handleJoin true (Except.ok ())
        (Trip.mk 1 2 UserRole.noneRole 1 4)).localTrip.currentPassengers =
      1 + 1 := by decide

/-- C1 (amended): only the direct-API path mutates local trip state,
incrementing `currentPassengers` by exactly one, and that increment happens
only after the `joinTrip` call resolves successfully (in the program-order
event trace, success confirmation strictly precedes the local increment);
the callback path and every failure path leave `localTrip` unchanged. -/
theorem joinPath_mutation (t : Trip) (m : String) :
    (handleJoin true (Except.ok ()) t).localTrip = t ∧
    (handleJoin true (Except.error m) t).localTrip = t ∧
    (handleJoin false (Except.ok ()) t).localTrip =
      { t with currentPassengers := t.currentPassengers + 1 } ∧
    (handleJoin false (Except.error m) t).localTrip = t ∧
    (directJoinEvents (Except.ok ())).indexOf JoinEvent.confirmSuccess <
      (directJoinEvents (Except.ok ())).indexOf JoinEvent.incrementLocal :=
  ⟨rfl, rfl, rfl, rfl, by decide⟩

/-- C4: a nonempty sequence of edits to `from`/`to` whose new values all have
length at least 2, each landing inside the 500ms window opened by its
predecessor, fires no call during the edits and leaves exactly one
trailing-edge timer, due 500ms after the last edit and carrying the full form
snapshot of the last edit — so once the window closes, `onSearch` has been
called exactly once, with that snapshot; edits that are below length 2 or to
other fields schedule no debounced call at all. -/
theorem debouncedSearch_spec (fd0 : SearchFormData) (e : Edit)
    (es : List Edit) :
    ((∀ x ∈ e :: es, qualifiesForDebounce x.name x.value = true) →
      withinWindow (e :: es) →
      runEdits ⟨fd0, none⟩ (e :: es) =
        ([], ⟨applyEdits fd0 (e :: es),
          some ((lastEdit e es).time + debounceDelayMs,
            applyEdits fd0 (e :: es))⟩) ∧
      flushCalls (runEdits ⟨fd0, none⟩ (e :: es)) =
        [applyEdits fd0 (e :: es)]) ∧
    (∀ ns : List Edit,
      (∀ x ∈ ns, qualifiesForDebounce x.name x.value = false) →
      flushCalls (runEdits ⟨fd0, none⟩ ns) = []) := by
  constructor
  · intro hq hw
    have hqe : qualifiesForDebounce e.name e.value = true :=
      hq e (List.mem_cons_self e _)
    have hstep : stepEdit ⟨fd0, none⟩ e =
        ([], ⟨applyEdit fd0 e.name e.value,
          some (e.time + debounceDelayMs, applyEdit fd0 e.name e.value)⟩) := by
      simp [stepEdit, hqe]
    have hrun : runEdits ⟨fd0, none⟩ (e :: es) =
        ([], ⟨applyEdits fd0 (e :: es),
          some ((lastEdit e es).time + debounceDelayMs,
            applyEdits fd0 (e :: es))⟩) := by
      cases es with
      | nil =>
          rw [runEdits_cons, hstep]
          simp [runEdits, applyEdits, lastEdit]
      | cons e2 rest =>
          rw [runEdits_cons, hstep]
          dsimp only
          have hq2 : ∀ x ∈ e2 :: rest,
              qualifiesForDebounce x.name x.value = true :=
            fun x hx => hq x (List.mem_cons_of_mem e hx)
          have hw2 : chainFrom (e.time + debounceDelayMs) (e2 :: rest) := hw
          rw [runEdits_chain rest e2 (applyEdit fd0 e.name e.value)
            (applyEdit fd0 e.name e.value) (e.time + debounceDelayMs)
            hw2.1 hq2 hw2.2]
          simp [applyEdits, lastEdit]
    exact ⟨hrun, by rw [hrun]; simp [flushCalls]⟩
  · intro ns hns
    rw [runEdits_no_qual ns fd0 hns]
    simp [flushCalls]

/-- C4 witness: typing "De" then "Del" into `to` 300ms apart fires exactly
once, for the "Del" snapshot; typing the single character "D" schedules
nothing. -/
theorem debouncedSearch_spec_witness :
    runEdits ⟨SearchFormData.mk "" "" "" 0, none⟩
        [Edit.mk FieldName.toField "De" 0, Edit.mk FieldName.toField "Del" 300] =
      ([], ⟨applyEdits (SearchFormData.mk "" "" "" 0)
          [Edit.mk FieldName.toField "De" 0, Edit.mk FieldName.toField "Del" 300],
        some ((lastEdit (Edit.mk FieldName.toField "De" 0)
            [Edit.mk FieldName.toField "Del" 300]).time + debounceDelayMs,
          applyEdits (SearchFormData.mk "" "" "" 0)
            [Edit.mk FieldName.toField "De" 0,
              Edit.mk FieldName.toField "Del" 300])⟩) ∧
    flushCalls (runEdits ⟨SearchFormData.mk "" "" "" 0, none⟩
        [Edit.mk FieldName.toField "De" 0, Edit.mk FieldName.toField "Del" 300]) =
      [applyEdits (SearchFormData.mk "" "" "" 0)
        [Edit.mk FieldName.toField "De" 0, Edit.mk FieldName.toField "Del" 300]] ∧
    flushCalls (runEdits ⟨SearchFormData.mk "" "" "" 0, none⟩
        [Edit.mk FieldName.toField "D" 100]) = [] := by
  refine ⟨?_, ?_, ?_⟩
  · exact ((debouncedSearch_spec _ _ _).1 (by decide) (by decide)).1
  · exact ((debouncedSearch_spec _ _ _).1 (by decide) (by decide)).2
  · exact (debouncedSearch_spec (SearchFormData.mk "" "" "" 0)
      (Edit.mk FieldName.toField "D" 100) []).2 _ (by decide)

/-- C10: the debounced live-search path hands `onSearch` the raw form
snapshot — untrimmed, unvalidated, and without the `maxPrice` fallback — so
it can fire with normalize-equal locations and a zero `maxPrice`, states the
submit path rejects; and on a state both paths accept, the two payloads
differ (raw vs trimmed-and-substituted). -/
theorem liveSearch_vs_submit_payloads :
    flushCalls (runEdits ⟨SearchFormData.mk " Delhi " "" "" 0, none⟩
        [Edit.mk FieldName.toField "Mumbai" 0]) =
      [SearchFormData.mk " Delhi " "Mumbai" "" 0] ∧
    handleSubmit (fun _ => 0) 0 (SearchFormData.mk " Delhi " "Mumbai" "" 0) =
      some (SearchFormData.mk "Delhi" "Mumbai" "" 10000) ∧
    SearchFormData.mk "Delhi" "Mumbai" "" (10000:Int) ≠
      SearchFormData.mk " Delhi " "Mumbai" "" 0 ∧
    flushCalls (runEdits ⟨SearchFormData.mk "Delhi." "" "" 0, none⟩
        [Edit.mk FieldName.toField "delhi" 0]) =
      [SearchFormData.mk "Delhi." "delhi" "" 0] ∧
    normalizeLocation "Delhi." = normalizeLocation "delhi" ∧
    (SearchFormData.mk "Delhi." "delhi" "" (0:Int)).maxPrice = 0 ∧
    handleSubmit (fun _ => 0) 0 (SearchFormData.mk "Delhi." "delhi" "" 0) =
      none := by decide

end RideShare
